import Mathlib

/-!
Verification of the billing system's invoice computation engine.

This file gives a shallow embedding, in Lean 4, of the core logic of the
billing application: the invoice calculator (subtotal / split GST / grand
total), the cart manager of the invoice generator (add / adjust / remove /
save / reset with its saved-lock), the amount-in-words converter, the
packing-weight aggregation, the invoice-history filter and sort, and the
CSV export serialization.  JavaScript numbers are modelled as rationals
(`ℚ`), `Math.round` as rounding half toward positive infinity, and strings
as Lean `String`s manipulated through their character lists.
-/

namespace Billing

/-- JS `Math.round`: rounds to the nearest integer, halves toward `+∞`. -/
def jsRound (q : ℚ) : ℤ := ⌊q + 1 / 2⌋

/-- Catalog entry (`Product` in `types.ts`). -/
structure Product where
  id : String
  name : String
  rate : ℚ
  unit : String
  packing : Option String
deriving Repr, DecidableEq

/-- One line of an invoice (`InvoiceItem` in `types.ts`). -/
structure InvoiceItem where
  id : String
  productId : String
  name : String
  quantity : ℚ
  unit : String
  rate : ℚ
  amount : ℚ
  packing : Option String
deriving Repr, DecidableEq

/-- The fields of `BusinessSettings` that the embedded logic reads
(the remaining fields of the source interface are display-only). -/
structure BusinessSettings where
  nextInvoiceNumber : ℤ
  enableGst : Bool
  defaultGstRate : Option ℚ
deriving Repr, DecidableEq

/-- A saved invoice (`Invoice` in `types.ts`); the GST fields are optional
for backward compatibility, exactly as in the source interface. -/
structure Invoice where
  id : String
  date : String
  customerName : String
  customerCity : String
  items : List InvoiceItem
  total : ℚ
  subtotal : Option ℚ
  gstAmount : Option ℚ
  gstRate : Option ℚ
  sgstAmount : Option ℚ
  cgstAmount : Option ℚ
deriving Repr, DecidableEq

/-! ### Invoice calculator (InvoiceGenerator, lines 84–93)

`const subtotal = items.reduce((sum, i) => sum + i.amount, 0);`
`const gstRate = settings.enableGst ? (settings.defaultGstRate || 0) : 0;`
`const halfRate = gstRate / 2;`
`const sgstAmount = settings.enableGst ? Math.round(subtotal * (halfRate / 100)) : 0;`
`const cgstAmount = settings.enableGst ? Math.round(subtotal * (halfRate / 100)) : 0;`
`const totalTax = sgstAmount + cgstAmount;`
`const grandTotal = subtotal + totalTax;`
-/

def subtotal (items : List InvoiceItem) : ℚ :=
  items.foldl (fun sum i => sum + i.amount) 0

def gstRate (settings : BusinessSettings) : ℚ :=
  if settings.enableGst then settings.defaultGstRate.getD 0 else 0

def halfRate (settings : BusinessSettings) : ℚ := gstRate settings / 2

def sgstAmount (items : List InvoiceItem) (settings : BusinessSettings) : ℚ :=
  if settings.enableGst then
    (jsRound (subtotal items * (halfRate settings / 100)) : ℚ)
  else 0

def cgstAmount (items : List InvoiceItem) (settings : BusinessSettings) : ℚ :=
  if settings.enableGst then
    (jsRound (subtotal items * (halfRate settings / 100)) : ℚ)
  else 0

def totalTax (items : List InvoiceItem) (settings : BusinessSettings) : ℚ :=
  sgstAmount items settings + cgstAmount items settings

def grandTotal (items : List InvoiceItem) (settings : BusinessSettings) : ℚ :=
  subtotal items + totalTax items settings

/-! ### Template-side calculator (InvoiceTemplate.tsx, lines 69–81)

The invoice template recomputes the same figures; when rendering from
history a `gstRate` prop overrides the settings default:
`const rate = propGstRate !== undefined ? propGstRate : (settings.defaultGstRate || 0);`
-/

def calcSubtotal (items : List InvoiceItem) : ℚ :=
  items.foldl (fun sum item => sum + item.amount) 0

def templateRate (settings : BusinessSettings) (propGstRate : Option ℚ) : ℚ :=
  match propGstRate with
  | some r => r
  | none => settings.defaultGstRate.getD 0

def calcSgst (items : List InvoiceItem) (settings : BusinessSettings)
    (propGstRate : Option ℚ) : ℚ :=
  if settings.enableGst then
    (jsRound (calcSubtotal items * (templateRate settings propGstRate / 2 / 100)) : ℚ)
  else 0

def calcCgst (items : List InvoiceItem) (settings : BusinessSettings)
    (propGstRate : Option ℚ) : ℚ :=
  if settings.enableGst then
    (jsRound (calcSubtotal items * (templateRate settings propGstRate / 2 / 100)) : ℚ)
  else 0

def totalAmount (items : List InvoiceItem) (settings : BusinessSettings)
    (propGstRate : Option ℚ) : ℚ :=
  calcSubtotal items + calcSgst items settings propGstRate +
    calcCgst items settings propGstRate

/-- Concrete line items and settings used by the witness theorems. -/
def demoItem : InvoiceItem :=
  { id := "i1", productId := "p1", name := "Rice", quantity := 2, unit := "Kg",
    rate := 50, amount := 100, packing := some "1 kg" }

def demoSettings : BusinessSettings :=
  { nextInvoiceNumber := 7, enableGst := true, defaultGstRate := some 5 }

/-! ### Cart manager (InvoiceGenerator component state and handlers)

The generator's React state that the cart operations read and write:
`billNo`, `date`, `customerName`, `customerCity`, `items`, `isSaved`
(the saved-lock) and `isSaving`.  The UI disables every editing control
with `disabled={isSaved}` while the lock is set, which is modelled by the
`click…`/`edit…` wrappers below; the raw handler bodies are modelled by
`addItem`, `updateItemQty`, `removeItem` and `resetForm`. -/

structure CartState where
  billNo : String
  date : String
  customerName : String
  customerCity : String
  items : List InvoiceItem
  isSaved : Bool
  isSaving : Bool
deriving Repr, DecidableEq

/-- The new line appended by `addItem` when the product is not yet in the
bill: it snapshots the product's current name, rate, unit and packing
(`newItem` object literal, lines 116–125). -/
def mkNewItem (newId : String) (product : Product) (qty : ℚ) : InvoiceItem :=
  { id := newId, productId := product.id, name := product.name,
    quantity := qty, unit := product.unit, rate := product.rate,
    amount := qty * product.rate, packing := product.packing }

/-- The merge branch of `addItem` (lines 105–114): the source locates the
first line with the given product id via `findIndex` and replaces it in
place with updated quantity and amount; this recursion performs the same
first-occurrence replacement. -/
def mergeItem (pid : String) (qty : ℚ) : List InvoiceItem → List InvoiceItem
  | [] => []
  | item :: rest =>
    if item.productId = pid then
      { item with quantity := item.quantity + qty,
                  amount := (item.quantity + qty) * item.rate } :: rest
    else
      item :: mergeItem pid qty rest

/-- `addItem` (lines 96–132).  `selectedProductID` and `qty` are the React
state the handler reads at click time, passed here as arguments; `newId` is
the fresh `Date.now().toString()` line id.  The source branches on
`findIndex(...) > -1`, modelled by `List.any` plus `mergeItem`. -/
def addItem (products : List Product) (selectedProductID : String) (qty : ℚ)
    (newId : String) (s : CartState) : CartState :=
  if selectedProductID = "" then s
  else
    match products.find? (fun p => p.id = selectedProductID) with
    | none => s
    | some product =>
      if s.items.any (fun item => item.productId = product.id) then
        { s with items := mergeItem product.id qty s.items, isSaved := false }
      else
        { s with items := s.items ++ [mkNewItem newId product qty],
                 isSaved := false }

/-- `updateItemQty` (lines 134–147): every line with the given id gets
quantity `Math.max(1, quantity + delta)` and its amount recomputed. -/
def updateItemQty (ident : String) (delta : ℚ) (s : CartState) : CartState :=
  { s with isSaved := false,
           items := s.items.map fun item =>
             if item.id = ident then
               { item with quantity := max 1 (item.quantity + delta),
                           amount := max 1 (item.quantity + delta) * item.rate }
             else item }

/-- `removeItem` (lines 149–152). -/
def removeItem (ident : String) (s : CartState) : CartState :=
  { s with isSaved := false,
           items := s.items.filter fun item => item.id ≠ ident }

/-- `resetForm` (lines 154–161); `now` is the freshly stamped date. -/
def resetForm (now : String) (s : CartState) : CartState :=
  { s with items := [], customerName := "", customerCity := "",
           isSaved := false, date := now }

/-- The add-product button carries `disabled={isSaved}`: clicking it while
the cart is locked is a no-op. -/
def clickAddItem (products : List Product) (selectedProductID : String)
    (qty : ℚ) (newId : String) (s : CartState) : CartState :=
  if s.isSaved then s else addItem products selectedProductID qty newId s

/-- The plus/minus quantity buttons carry `disabled={isSaved}`. -/
def clickAdjustQty (ident : String) (delta : ℚ) (s : CartState) : CartState :=
  if s.isSaved then s else updateItemQty ident delta s

/-- The remove-line button carries `disabled={isSaved}`. -/
def clickRemoveItem (ident : String) (s : CartState) : CartState :=
  if s.isSaved then s else removeItem ident s

/-- The date input carries `disabled={isSaved}`. -/
def editDate (value : String) (s : CartState) : CartState :=
  if s.isSaved then s else { s with date := value }

/-- The customer-name input carries `disabled={isSaved}`; its change
handler also clears the saved flag. -/
def editCustomerName (value : String) (s : CartState) : CartState :=
  if s.isSaved then s else { s with customerName := value, isSaved := false }

/-- The city input carries `disabled={isSaved}`. -/
def editCustomerCity (value : String) (s : CartState) : CartState :=
  if s.isSaved then s else { s with customerCity := value, isSaved := false }

/-- The `useEffect` that re-syncs the displayed bill number from
`settings.nextInvoiceNumber` runs only when the cart is not locked
(`if (!isSaved) setBillNo(...)`, lines 41–46). -/
def syncBillNo (settings : BusinessSettings) (s : CartState) : CartState :=
  if s.isSaved then s
  else { s with billNo := toString settings.nextInvoiceNumber }

/-- The `Invoice` object literal built inside `handleSave` (lines 186–199). -/
def buildInvoice (settings : BusinessSettings) (s : CartState) : Invoice :=
  { id := s.billNo, date := s.date, customerName := s.customerName,
    customerCity := s.customerCity, items := s.items,
    total := grandTotal s.items settings,
    subtotal := some (subtotal s.items),
    gstAmount := some (totalTax s.items settings),
    gstRate := some (gstRate settings),
    sgstAmount := some (sgstAmount s.items settings),
    cgstAmount := some (cgstAmount s.items settings) }

/-- The synchronous prefix of `handleSave` (lines 180–206): reject an empty
bill, otherwise set `isSaving` and set the lock `isSaved` immediately —
before `onSaveInvoice` is awaited — and hand the built invoice to the
pending asynchronous persistence call (returned as the second component). -/
def handleSaveStart (settings : BusinessSettings) (s : CartState) :
    CartState × Option Invoice :=
  if s.items = [] then (s, none)
  else ({ s with isSaving := true, isSaved := true },
        some (buildInvoice settings s))

/-- Continuation of `handleSave` when `onSaveInvoice` resolves: only the
`finally` block runs (`setIsSaving(false)`). -/
def handleSaveSuccess (s : CartState) : CartState := { s with isSaving := false }

/-- Continuation of `handleSave` when `onSaveInvoice` rejects: the `catch`
block releases the lock (`setIsSaved(false)`) and the `finally` block
clears `isSaving`; nothing else is touched. -/
def handleSaveFailure (s : CartState) : CartState :=
  { s with isSaved := false, isSaving := false }

/-- A second demo line with a different product, and a demo cart, used by
the cart-manager witnesses. -/
def demoItem2 : InvoiceItem :=
  { id := "i2", productId := "p2", name := "Wheat", quantity := 1, unit := "Kg",
    rate := 40, amount := 40, packing := some "500 gm" }

def demoProduct : Product :=
  { id := "p1", name := "Rice", rate := 50, unit := "Kg", packing := some "1 kg" }

def demoProduct2 : Product :=
  { id := "p2", name := "Wheat", rate := 40, unit := "Kg", packing := some "500 gm" }

def demoCart : CartState :=
  { billNo := "7", date := "05/01/2024", customerName := "Asha",
    customerCity := "Pune", items := [demoItem], isSaved := false,
    isSaving := false }

def demoCart2 : CartState :=
  { billNo := "7", date := "05/01/2024", customerName := "Asha",
    customerCity := "Pune", items := [demoItem, demoItem2], isSaved := false,
    isSaving := false }

/-! ### Amount in words (InvoiceTemplate.tsx, lines 34–56)

`numberToWords` renders an amount in the Indian numbering system.  The
source zero-pads the decimal string to nine digits and splits it with the
regex `^(\\d{2})(\\d{2})(\\d{2})(\\d{1})(\\d{2})$` into crore / lakh /
thousand / hundred / unit groups; those groups are exactly the digit
slices computed arithmetically below, and `n.toString().length > 9` is
exactly `n ≥ 10^9` for a natural number. -/

def onesWords : List String :=
  ["", "One ", "Two ", "Three ", "Four ", "Five ", "Six ", "Seven ",
   "Eight ", "Nine ", "Ten ", "Eleven ", "Twelve ", "Thirteen ",
   "Fourteen ", "Fifteen ", "Sixteen ", "Seventeen ", "Eighteen ",
   "Nineteen "]

def tensWords : List String :=
  ["", "", "Twenty", "Thirty", "Forty", "Fifty", "Sixty", "Seventy",
   "Eighty", "Ninety"]

/-- The per-group word: `a[g] || b[g_tens] + ' ' + a[g_units]` — the table
lookup `a[g]` is used when it is a non-empty string, i.e. for `1 ≤ g ≤ 19`,
else the tens/units fallback (the source only evaluates this for nonzero
groups). -/
def subWords (g : ℕ) : String :=
  if g ≠ 0 ∧ g < 20 then onesWords.getD g ""
  else tensWords.getD (g / 10) "" ++ " " ++ onesWords.getD (g % 10) ""

/-- The inner `inWords` closure. -/
def inWords (n : ℕ) : String :=
  if 1000000000 ≤ n then "overflow"
  else
    let c := n / 10000000 % 100
    let l := n / 100000 % 100
    let t := n / 1000 % 100
    let h := n / 100 % 10
    let u := n % 100
    let str4 :=
      (if c ≠ 0 then subWords c ++ "Crore " else "") ++
      (if l ≠ 0 then subWords l ++ "Lakh " else "") ++
      (if t ≠ 0 then subWords t ++ "Thousand " else "") ++
      (if h ≠ 0 then subWords h ++ "Hundred " else "")
    str4 ++ (if u ≠ 0 then (if str4 ≠ "" then "and " else "") ++ subWords u
             else "")

def numberToWords (num : ℕ) : String :=
  if num = 0 then "Zero" else inWords num ++ "Only"

/-! ### String primitives shared by the weight, history and CSV logic.

JS string methods are modelled on the character list of the `String`. -/

/-- JS `toLowerCase` (the inputs here are ASCII). -/
def jsToLower (s : String) : String := String.mk (s.data.map Char.toLower)

/-- JS `trim`: strip whitespace from both ends. -/
def jsTrim (s : String) : String :=
  String.mk
    (((s.data.dropWhile Char.isWhitespace).reverse.dropWhile
        Char.isWhitespace).reverse)

/-- Value of a nonempty digit string. -/
def digitsVal (cs : List Char) : ℕ :=
  cs.foldl (fun a c => 10 * a + (c.toNat - Char.toNat (Char.ofNat 48))) 0

/-- Does `sub` occur as a contiguous substring of the character list? -/
def containsSub (sub : List Char) : List Char → Bool
  | [] => sub.isEmpty
  | c :: t => List.isPrefixOf sub (c :: t) || containsSub sub t

/-- JS `String.prototype.includes`. -/
def jsIncludes (s sub : String) : Bool := containsSub sub.data s.data

/-- JS `String.prototype.split` with a one-character separator. -/
def jsSplit (sep : Char) (s : String) : List String :=
  (List.splitOn sep s.data).map String.mk

/-- JS `Array.prototype.join`. -/
def jsJoin (sep : String) (parts : List String) : String :=
  String.mk (List.intercalate sep.data (parts.map String.data))

/-- JS `Number(str)` restricted to the digit strings that occur in this
application (`Number('') === 0`; a non-numeric string gives `NaN`,
modelled as `none`). -/
def jsNumber (s : String) : Option ℤ :=
  if s.data = [] then some 0
  else if s.data.all Char.isDigit then some (digitsVal s.data : ℤ)
  else none

/-- JS `parseInt(str)` restricted likewise: value of the leading digit
run, `NaN` (modelled `none`) if there is none. -/
def jsParseInt (s : String) : Option ℤ :=
  let ds := s.data.takeWhile Char.isDigit
  if ds = [] then none else some (digitsVal ds : ℤ)

/-! ### Weight aggregation (InvoiceTemplate.tsx, lines 84–111)

Each line's packing text is matched against the case-insensitive prefix
regex `^(\\d+(\\.\\d+)?)\\s*(kg|gm|g|ltr|ml|l)` after `toLowerCase().trim()`;
kg / ltr / l multiply the value by 1000, gm / g / ml stay as-is. -/

/-- The leading `\\d+(\\.\\d+)?` of the regex: greedy digits, then an
optional fraction whose digits must be nonempty (otherwise the optional
group matches nothing and the dot is left unconsumed). -/
def parseDecimal (cs : List Char) : Option (ℚ × List Char) :=
  let intDigits := cs.takeWhile Char.isDigit
  let rest := cs.drop intDigits.length
  if intDigits = [] then none
  else
    match rest with
    | '.' :: rest2 =>
      let fracDigits := rest2.takeWhile Char.isDigit
      if fracDigits = [] then some ((digitsVal intDigits : ℚ), rest)
      else
        some ((digitsVal intDigits : ℚ) +
            (digitsVal fracDigits : ℚ) / ((10 : ℚ) ^ fracDigits.length),
          rest2.drop fracDigits.length)
    | _ => some ((digitsVal intDigits : ℚ), rest)

/-- The unit alternation `kg|gm|g|ltr|ml|l`, tried left to right as a
prefix of the remaining text. -/
def matchUnit (cs : List Char) : Option String :=
  if List.isPrefixOf "kg".data cs then some "kg"
  else if List.isPrefixOf "gm".data cs then some "gm"
  else if List.isPrefixOf "g".data cs then some "g"
  else if List.isPrefixOf "ltr".data cs then some "ltr"
  else if List.isPrefixOf "ml".data cs then some "ml"
  else if List.isPrefixOf "l".data cs then some "l"
  else none

/-- Parse one packing text: base units contributed per unit quantity, or
`none` when the pattern does not match. -/
def parsePacking (packing : String) : Option ℚ :=
  let text := jsTrim (jsToLower packing)
  match parseDecimal text.data with
  | none => none
  | some (v, rest) =>
    let rest2 := rest.dropWhile Char.isWhitespace
    match matchUnit rest2 with
    | none => none
    | some u => some (if u = "kg" ∨ u = "ltr" ∨ u = "l" then v * 1000 else v)

/-- One line's contribution to the running gram total: `value * quantity`
for a matching packing, `0` otherwise (also when packing is absent or
empty, which the source skips via its falsiness check). -/
def itemGrams (item : InvoiceItem) : ℚ :=
  match item.packing with
  | none => 0
  | some packing =>
    match parsePacking packing with
    | none => 0
    | some v => v * item.quantity

/-- `totalWeightDisplay`: the reduce over items, the dash sentinel when
nothing contributed, and the `"<kg> Kg <gm> Gm"` formatting
(`Math.floor(total/1000)` kilograms, `Math.round(total % 1000)` grams;
for the nonnegative totals produced here `x % 1000 = x - 1000⌊x/1000⌋`). -/
def totalWeightDisplay (items : List InvoiceItem) : String :=
  let totalGrams := items.foldl (fun sum item => sum + itemGrams item) 0
  if totalGrams = 0 then "-"
  else
    let kg : ℤ := ⌊totalGrams / 1000⌋
    let gm : ℤ := jsRound (totalGrams - 1000 * ⌊totalGrams / 1000⌋)
    let parts := (if 0 < kg then [toString kg ++ " Kg"] else []) ++
      (if 0 < gm then [toString gm ++ " Gm"] else [])
    jsJoin " " parts

/-! ### History filtering, sorting and CSV export (InvoiceHistory)

`filteredInvoices` (lines 133–166): case-insensitive substring match on
customer name or bill id, an optional inclusive day-first date range, and
a sort descending by `parseInt` of the bill id.  Dates are compared as
`(year, monthIndex, day)` triples, matching `new Date(y, m - 1, d)` at
midnight for in-range components. -/

def matchesSearch (searchTerm : String) (inv : Invoice) : Bool :=
  jsIncludes (jsToLower inv.customerName) (jsToLower searchTerm) ||
    jsIncludes (jsToLower inv.id) (jsToLower searchTerm)

/-- The invoice's stored day-first date `DD/MM/YYYY`, as a comparison
triple; `none` when the string does not split into three parts (the date
filter is then skipped) or a component is `NaN` (the `Date` is invalid and
every comparison is false, which likewise always passes). -/
def invDateTriple (date : String) : Option (ℤ × ℤ × ℤ) :=
  match jsSplit '/' date with
  | [d, m, y] =>
    match jsNumber d, jsNumber m, jsNumber y with
    | some dn, some mn, some yn => some (yn, mn - 1, dn)
    | _, _, _ => none
  | _ => none

/-- The `<input type="date">` value `YYYY-MM-DD`, as the same kind of
comparison triple. -/
def isoDateTriple (s : String) : Option (ℤ × ℤ × ℤ) :=
  match jsSplit '-' s with
  | [y, m, d] =>
    match jsNumber y, jsNumber m, jsNumber d with
    | some yn, some mn, some dn => some (yn, mn - 1, dn)
    | _, _, _ => none
  | _ => none

/-- Strict comparison of two midnight dates as triples. -/
def tripleLt (a b : ℤ × ℤ × ℤ) : Bool :=
  decide (a.1 < b.1 ∨ (a.1 = b.1 ∧
    (a.2.1 < b.2.1 ∨ (a.2.1 = b.2.1 ∧ a.2.2 < b.2.2))))

def matchesDate (startDate endDate : String) (inv : Invoice) : Bool :=
  if startDate = "" ∧ endDate = "" then true
  else
    match invDateTriple inv.date with
    | none => true
    | some t =>
      let startOk :=
        if startDate = "" then true
        else
          match isoDateTriple startDate with
          | none => true
          | some st => !(tripleLt t st)
      let endOk :=
        if endDate = "" then true
        else
          match isoDateTriple endDate with
          | none => true
          | some en => !(tripleLt en t)
      startOk && endOk

/-- The sort comparator `(a, b) => parseInt(b.id) - parseInt(a.id)` as a
total boolean order: `a` may precede `b` when the comparator is `≤ 0`;
a `NaN` difference is treated as `0` (order preserved). -/
def sortLE (a b : Invoice) : Bool :=
  match jsParseInt a.id, jsParseInt b.id with
  | some x, some y => decide (y ≤ x)
  | _, _ => true

/-- The numeric bill id (only meaningful where `jsParseInt` succeeds). -/
def numericId (inv : Invoice) : ℤ := (jsParseInt inv.id).getD 0

/-- `filteredInvoices`: filter by search term and date range, then sort
descending by numeric bill id (a stable comparator sort). -/
def filteredInvoices (invoices : List Invoice)
    (searchTerm startDate endDate : String) : List Invoice :=
  List.insertionSort (fun a b => sortLE a b = true)
    (invoices.filter fun inv =>
      matchesSearch searchTerm inv && matchesDate startDate endDate inv)

/-! ### CSV export (`handleExportCSV`, lines 233–264) -/

/-- Model of the global quote replacement: every quote character in the
string is doubled. -/
def escapeQuotes (s : String) : String :=
  String.mk (s.data.flatMap fun ch => if ch = '"' then ['"', '"'] else [ch])

/-- Wrap a free-text field in quotes, doubling embedded quotes. -/
def csvQuote (s : String) : String := "\"" ++ escapeQuotes s ++ "\""

/-- Decimal rendering of a JS number.  The amounts this application
produces are integer-valued rationals, rendered as their integer decimal
string; non-integers fall back to the canonical rational form (a modelling
approximation of float printing, unused by the claims). -/
def jsNumToString (q : ℚ) : String :=
  if q.den = 1 then toString q.num else toString q

/-- The flattened items field:
`Name[ packing] (quantity unit)` joined by `", "`. -/
def itemsString (items : List InvoiceItem) : String :=
  jsJoin ", " (items.map fun item =>
    item.name ++
      (match item.packing with | some p => " " ++ p | none => "") ++
      " (" ++ jsNumToString item.quantity ++ " " ++ item.unit ++ ")")

def csvHeaders : List String :=
  ["Bill No", "Date", "Customer Name", "City", "Items", "Total Amount"]

/-- One CSV row: id and date verbatim, quoted name / city / items, total. -/
def csvRow (inv : Invoice) : String :=
  jsJoin ","
    [inv.id, inv.date, csvQuote inv.customerName, csvQuote inv.customerCity,
     csvQuote (itemsString inv.items), jsNumToString inv.total]

/-- `csvContent`: the header row followed by one row per invoice, joined
by a newline. -/
def csvContent (invoices : List Invoice) : String :=
  jsJoin "\n" (jsJoin "," csvHeaders :: invoices.map csvRow)

/-- Splitting a produced file into its newline-separated lines. -/
def csvLines (s : String) : List String := jsSplit '\n' s

/-- Line without matching packing, for the weight witnesses. -/
def noWeightItem : InvoiceItem :=
  { id := "n1", productId := "p9", name := "Box", quantity := 5,
    unit := "Pcs", rate := 10, amount := 50, packing := none }

/-- Concrete invoices for the history and CSV claims. -/
def demoInvoice9 : Invoice :=
  { id := "9", date := "05/01/2024", customerName := "Asha",
    customerCity := "Pune", items := [demoItem], total := 100,
    subtotal := none, gstAmount := none, gstRate := none,
    sgstAmount := none, cgstAmount := none }

def demoInvoice10 : Invoice :=
  { id := "10", date := "06/01/2024", customerName := "Birju",
    customerCity := "Surat", items := [demoItem2], total := 40,
    subtotal := none, gstAmount := none, gstRate := none,
    sgstAmount := none, cgstAmount := none }

/-- An invoice whose stored date string does not split into three parts. -/
def badDateInvoice : Invoice :=
  { id := "2", date := "sometime", customerName := "Chetan",
    customerCity := "Goa", items := [], total := 60,
    subtotal := none, gstAmount := none, gstRate := none,
    sgstAmount := none, cgstAmount := none }

/-- An invoice whose customer name embeds a newline character. -/
def newlineInvoice : Invoice :=
  { id := "1", date := "01/01/2024", customerName := "A\nB",
    customerCity := "X", items := [], total := 100,
    subtotal := none, gstAmount := none, gstRate := none,
    sgstAmount := none, cgstAmount := none }

/-- Folding `+ f x` over a list starting from `a` is `a` plus the sum of the
mapped list. -/
theorem foldl_add_map {α : Type} (f : α → ℚ) (l : List α) (a : ℚ) :
    l.foldl (fun s x => s + f x) a = a + (l.map f).sum := by
  induction l generalizing a with
  | nil => simp
  | cons x t ih => simp [ih, add_assoc]

/-- C1: for line items satisfying `amount = quantity * rate`, the calculator
produces `subtotal = Σ quantityᵢ * rateᵢ` exactly; with tax disabled both
components are `0` and `grandTotal = subtotal`; with tax enabled at rate `R`
each component is `round(subtotal * (R/2) / 100)` and
`grandTotal = subtotal + taxComponentA + taxComponentB`.  Both the generator
calculator and the template calculator are covered. -/
theorem invoice_calculator_spec (items : List InvoiceItem) (R : ℚ)
    (hamt : ∀ i ∈ items, i.amount = i.quantity * i.rate) :
    subtotal items = (items.map (fun i => i.quantity * i.rate)).sum ∧
    (∀ s : BusinessSettings, s.enableGst = false →
      sgstAmount items s = 0 ∧ cgstAmount items s = 0 ∧
      grandTotal items s = subtotal items) ∧
    (∀ s : BusinessSettings, s.enableGst = true → s.defaultGstRate = some R →
      sgstAmount items s = (jsRound (subtotal items * (R / 2) / 100) : ℚ) ∧
      cgstAmount items s = (jsRound (subtotal items * (R / 2) / 100) : ℚ) ∧
      grandTotal items s =
        subtotal items + sgstAmount items s + cgstAmount items s) ∧
    (∀ s : BusinessSettings, s.enableGst = true → s.defaultGstRate = some R →
      calcSgst items s none = (jsRound (calcSubtotal items * (R / 2) / 100) : ℚ) ∧
      calcCgst items s none = (jsRound (calcSubtotal items * (R / 2) / 100) : ℚ) ∧
      totalAmount items s none =
        calcSubtotal items + calcSgst items s none + calcCgst items s none) := by
  have hsub : subtotal items = (items.map (fun i => i.quantity * i.rate)).sum := by
    have hmap : items.map (fun i => i.amount) =
        items.map (fun i => i.quantity * i.rate) :=
      List.map_congr_left hamt
    simp [subtotal, foldl_add_map (fun i : InvoiceItem => i.amount), hmap]
  refine ⟨hsub, ?_, ?_, ?_⟩
  · intro s hs
    simp [sgstAmount, cgstAmount, grandTotal, totalTax, hs]
  · intro s hs hrate
    have hr : subtotal items * (halfRate s / 100) = subtotal items * (R / 2) / 100 := by
      simp only [halfRate, gstRate, hs, hrate, if_true, Option.getD_some]
      ring
    constructor
    · simp [sgstAmount, hs, hr]
    constructor
    · simp [cgstAmount, hs, hr]
    · simp [grandTotal, totalTax, add_assoc]
  · intro s hs hrate
    have hr : calcSubtotal items * (templateRate s none / 2 / 100) =
        calcSubtotal items * (R / 2) / 100 := by
      simp only [templateRate, hrate, Option.getD_some]
      ring
    constructor
    · simp [calcSgst, hs, hr]
    constructor
    · simp [calcCgst, hs, hr]
    · simp [totalAmount]

/-- Witness for C1 at a concrete cart: one line of 2 × ₹50 with 5% GST. -/
theorem invoice_calculator_spec_witness :
    subtotal [demoItem] = ([demoItem].map (fun i => i.quantity * i.rate)).sum ∧
    sgstAmount [demoItem] demoSettings =
      (jsRound (subtotal [demoItem] * (5 / 2) / 100) : ℚ) ∧
    grandTotal [demoItem] demoSettings =
      subtotal [demoItem] + sgstAmount [demoItem] demoSettings +
        cgstAmount [demoItem] demoSettings := by
  have h := invoice_calculator_spec [demoItem] 5 (by
    intro i hi
    simp only [List.mem_singleton] at hi
    subst hi
    norm_num [demoItem])
  exact ⟨h.1, (h.2.2.1 demoSettings rfl rfl).1, (h.2.2.1 demoSettings rfl rfl).2.2⟩

/-- C10: the two tax components are computed by the identical rounded
expression, so they are equal for every item list, every settings value and
every tax rate — including rates whose half is not an integer percentage.
This holds for the generator calculator and for the template calculator. -/
theorem tax_components_always_equal (items : List InvoiceItem)
    (settings : BusinessSettings) (propGstRate : Option ℚ) :
    sgstAmount items settings = cgstAmount items settings ∧
    calcSgst items settings propGstRate = calcCgst items settings propGstRate :=
  ⟨rfl, rfl⟩

/-- C2: from the moment save is initiated the cart is locked.  The
synchronous prefix of `handleSave` sets the lock together with issuing the
persistence call; while locked, every add, adjust, remove and header-edit
click — and the bill-number re-sync effect — is a no-op, so the line items
and displayed bill number cannot change, until `resetForm` clears the lock,
after which `addItem` succeeds again. -/
theorem cart_lock_spec (settings : BusinessSettings) (s : CartState)
    (h : s.items ≠ []) :
    (handleSaveStart settings s).1.isSaved = true ∧
    (handleSaveStart settings s).2 = some (buildInvoice settings s) ∧
    (∀ products pid q nid,
      clickAddItem products pid q nid (handleSaveStart settings s).1 =
        (handleSaveStart settings s).1) ∧
    (∀ ident d, clickAdjustQty ident d (handleSaveStart settings s).1 =
        (handleSaveStart settings s).1) ∧
    (∀ ident, clickRemoveItem ident (handleSaveStart settings s).1 =
        (handleSaveStart settings s).1) ∧
    (∀ v, editDate v (handleSaveStart settings s).1 =
        (handleSaveStart settings s).1 ∧
      editCustomerName v (handleSaveStart settings s).1 =
        (handleSaveStart settings s).1 ∧
      editCustomerCity v (handleSaveStart settings s).1 =
        (handleSaveStart settings s).1) ∧
    (∀ st, syncBillNo st (handleSaveStart settings s).1 =
        (handleSaveStart settings s).1) ∧
    (handleSaveStart settings s).1.items = s.items ∧
    (handleSaveStart settings s).1.billNo = s.billNo ∧
    (∀ now, (resetForm now (handleSaveStart settings s).1).isSaved = false) ∧
    (∀ now products pid q nid p, pid ≠ "" →
      products.find? (fun x => x.id = pid) = some p →
      (clickAddItem products pid q nid
          (resetForm now (handleSaveStart settings s).1)).items =
        [mkNewItem nid p q]) := by
  have hs1 : (handleSaveStart settings s).1 =
      { s with isSaving := true, isSaved := true } := by
    simp [handleSaveStart, h]
  have hs2 : (handleSaveStart settings s).2 = some (buildInvoice settings s) := by
    simp [handleSaveStart, h]
  refine ⟨by simp [hs1], hs2, ?_, ?_, ?_, ?_, ?_, by simp [hs1], by simp [hs1],
      ?_, ?_⟩
  · intro products pid q nid
    simp [clickAddItem, hs1]
  · intro ident d
    simp [clickAdjustQty, hs1]
  · intro ident
    simp [clickRemoveItem, hs1]
  · intro v
    refine ⟨?_, ?_, ?_⟩ <;> simp [editDate, editCustomerName, editCustomerCity, hs1]
  · intro st
    simp [syncBillNo, hs1]
  · intro now
    simp [resetForm]
  · intro now products pid q nid p hpid hfind
    have hreset : (resetForm now (handleSaveStart settings s).1).isSaved = false := by
      simp [resetForm]
    have hitems : (resetForm now (handleSaveStart settings s).1).items = [] := by
      simp [resetForm]
    simp [clickAddItem, hreset, addItem, hpid, hfind, hitems]

/-- Witness for C2 at the concrete demo cart: save locks the cart, a
subsequent add click is a no-op, and after reset the add succeeds. -/
theorem cart_lock_spec_witness :
    (handleSaveStart demoSettings demoCart).1.isSaved = true ∧
    clickAddItem [demoProduct2] "p2" 1 "i9"
        (handleSaveStart demoSettings demoCart).1 =
      (handleSaveStart demoSettings demoCart).1 ∧
    (clickAddItem [demoProduct2] "p2" 1 "i9"
        (resetForm "06/01/2024" (handleSaveStart demoSettings demoCart).1)).items =
      [mkNewItem "i9" demoProduct2 1] := by
  have h := cart_lock_spec demoSettings demoCart (by decide)
  exact ⟨h.1, h.2.2.1 [demoProduct2] "p2" 1 "i9",
    h.2.2.2.2.2.2.2.2.2.2 "06/01/2024" [demoProduct2] "p2" 1 "i9" demoProduct2
      (by decide) (by decide)⟩

/-- C3: when the asynchronous persistence call rejects, `handleSave`'s
`catch`/`finally` release the lock, leaving the line items, customer
name/city, date and bill number exactly as they were before the save was
initiated; if the cart was editable before the save it is restored
verbatim, and the save can be re-initiated. -/
theorem save_failure_spec (settings : BusinessSettings) (s : CartState)
    (h : s.items ≠ []) :
    (handleSaveFailure (handleSaveStart settings s).1).items = s.items ∧
    (handleSaveFailure (handleSaveStart settings s).1).customerName =
      s.customerName ∧
    (handleSaveFailure (handleSaveStart settings s).1).customerCity =
      s.customerCity ∧
    (handleSaveFailure (handleSaveStart settings s).1).date = s.date ∧
    (handleSaveFailure (handleSaveStart settings s).1).billNo = s.billNo ∧
    (handleSaveFailure (handleSaveStart settings s).1).isSaved = false ∧
    (handleSaveFailure (handleSaveStart settings s).1).isSaving = false ∧
    (s.isSaved = false → s.isSaving = false →
      handleSaveFailure (handleSaveStart settings s).1 = s) ∧
    (handleSaveStart settings
        (handleSaveFailure (handleSaveStart settings s).1)).2 =
      some (buildInvoice settings
        (handleSaveFailure (handleSaveStart settings s).1)) := by
  have hs1 : (handleSaveStart settings s).1 =
      { s with isSaving := true, isSaved := true } := by
    simp [handleSaveStart, h]
  have hfail : handleSaveFailure (handleSaveStart settings s).1 =
      { s with isSaved := false, isSaving := false } := by
    simp [handleSaveFailure, hs1]
  refine ⟨by simp [hfail], by simp [hfail], by simp [hfail], by simp [hfail],
    by simp [hfail], by simp [hfail], by simp [hfail], ?_, ?_⟩
  · intro h1 h2
    rw [hfail]
    cases s
    simp_all
  · rw [hfail]
    simp [handleSaveStart, h]

/-- Witness for C3 at the concrete demo cart: after a failed save the cart
is restored verbatim. -/
theorem save_failure_spec_witness :
    handleSaveFailure (handleSaveStart demoSettings demoCart).1 = demoCart := by
  exact (save_failure_spec demoSettings demoCart (by decide)).2.2.2.2.2.2.2.1
    rfl rfl

/-- C4: `updateItemQty` sets every line with the given id to quantity
`max(1, old + delta)` with its amount recomputed, so an adjusted line's
quantity is never below `1` and its amount is `quantity * rate`; repeating
a decrement on a line whose quantity is `1` leaves the quantity at `1`
after any number of calls. -/
theorem adjust_quantity_spec (s : CartState) (ident : String) (delta : ℚ) :
    (∀ item ∈ (updateItemQty ident delta s).items, item.id = ident →
      1 ≤ item.quantity ∧ item.amount = item.quantity * item.rate) ∧
    (∀ item ∈ s.items, item.id = ident →
      { item with quantity := max 1 (item.quantity + delta),
                  amount := max 1 (item.quantity + delta) * item.rate } ∈
        (updateItemQty ident delta s).items) ∧
    (∀ item ∈ s.items, item.id = ident → item.quantity = 1 →
      ∀ n : ℕ, ∃ item' ∈ ((updateItemQty ident (-1))^[n + 1] s).items,
        item'.id = ident ∧ item'.quantity = 1) := by
  refine ⟨?_, ?_, ?_⟩
  · intro item hmem hid
    simp only [updateItemQty, List.mem_map] at hmem
    obtain ⟨x, hx, hfx⟩ := hmem
    by_cases hxid : x.id = ident
    · rw [if_pos hxid] at hfx
      subst hfx
      exact ⟨le_max_left 1 _, rfl⟩
    · rw [if_neg hxid] at hfx
      subst hfx
      exact absurd hid hxid
  · intro item hmem hid
    simp only [updateItemQty, List.mem_map]
    exact ⟨item, hmem, by rw [if_pos hid]⟩
  · intro item hmem hid hq1
    have hmax : max (1 : ℚ) (1 + -1) = 1 := by norm_num
    have hstep : ∀ t : CartState, ∀ x ∈ t.items, x.id = ident →
        x.quantity = 1 → x.amount = 1 * x.rate →
        x ∈ (updateItemQty ident (-1) t).items := by
      intro t x hx hxid hxq hxa
      simp only [updateItemQty, List.mem_map]
      refine ⟨x, hx, ?_⟩
      rw [if_pos hxid, hxq, hmax, ← hxa, ← hxq]
    have hbase : ∀ t : CartState, ∀ x ∈ t.items, x.id = ident →
        x.quantity = 1 →
        { x with quantity := (1 : ℚ), amount := 1 * x.rate } ∈
          (updateItemQty ident (-1) t).items := by
      intro t x hx hxid hxq
      simp only [updateItemQty, List.mem_map]
      refine ⟨x, hx, ?_⟩
      rw [if_pos hxid, hxq, hmax]
    have key : ∀ n : ℕ, ∃ item' ∈ ((updateItemQty ident (-1))^[n + 1] s).items,
        item'.id = ident ∧ item'.quantity = 1 ∧ item'.amount = 1 * item'.rate := by
      intro n
      induction n with
      | zero =>
        refine ⟨{ item with quantity := (1 : ℚ), amount := 1 * item.rate },
          ?_, hid, rfl, rfl⟩
        simpa using hbase s item hmem hid hq1
      | succ k ih =>
        obtain ⟨item', hmem', hid', hq', ha'⟩ := ih
        refine ⟨item', ?_, hid', hq', ha'⟩
        rw [Function.iterate_succ_apply']
        exact hstep _ item' hmem' hid' hq' ha'
    intro n
    obtain ⟨item', hmem', hid', hq', _⟩ := key n
    exact ⟨item', hmem', hid', hq'⟩

/-- Witness for C4: decrementing the quantity-1 demo line keeps it at 1. -/
theorem adjust_quantity_spec_witness :
    ∃ item' ∈ ((updateItemQty "i2" (-1))^[3 + 1] demoCart2).items,
      item'.id = "i2" ∧ item'.quantity = 1 := by
  exact (adjust_quantity_spec demoCart2 "i2" (-1)).2.2 demoItem2 (by decide)
    (by decide) (by decide) 3

/-- Decomposition of the merge branch: when some line matches the product
id, the list splits as earlier non-matching lines, the first matching line,
and the rest, and `mergeItem` replaces exactly that first matching line. -/
theorem mergeItem_decomp (pid : String) (q : ℚ) :
    ∀ l : List InvoiceItem, l.any (fun it => it.productId = pid) = true →
      ∃ l₁ item l₂, l = l₁ ++ item :: l₂ ∧
        (∀ x ∈ l₁, ¬(x.productId = pid)) ∧ item.productId = pid ∧
        mergeItem pid q l = l₁ ++
          { item with quantity := item.quantity + q,
                      amount := (item.quantity + q) * item.rate } :: l₂ := by
  intro l
  induction l with
  | nil => intro h; simp at h
  | cons it rest ih =>
    intro h
    by_cases hit : it.productId = pid
    · refine ⟨[], it, rest, rfl, by simp, hit, ?_⟩
      simp [mergeItem, hit]
    · have hrest : rest.any (fun x => x.productId = pid) = true := by
        simp only [List.any_cons, Bool.or_eq_true, decide_eq_true_eq] at h
        rcases h with h | h
        · exact absurd h hit
        · exact h
      obtain ⟨l₁, item, l₂, hl, hl₁, hitem, hmerge⟩ := ih hrest
      refine ⟨it :: l₁, item, l₂, by simp [hl], ?_, hitem, ?_⟩
      · intro x hx
        rcases List.mem_cons.mp hx with rfl | hx
        · exact hit
        · exact hl₁ x hx
      · simp [mergeItem, hit, hmerge]

/-- C5: `addItem` with a product id already present merges into the single
first matching line — quantity becomes the sum, amount is the new quantity
times the line's snapshotted rate, and the number of lines is unchanged —
while `addItem` with a product id not present appends one new line
snapshotting the product's current name, rate, unit and packing
(`mkNewItem`). -/
theorem add_item_spec (products : List Product) (pid : String) (q : ℚ)
    (nid : String) (s : CartState) (p : Product)
    (hpid : pid ≠ "") (hfind : products.find? (fun x => x.id = pid) = some p) :
    ((s.items.any fun it => it.productId = p.id) = true →
      ∃ l₁ item l₂, s.items = l₁ ++ item :: l₂ ∧
        (∀ x ∈ l₁, ¬(x.productId = p.id)) ∧ item.productId = p.id ∧
        (addItem products pid q nid s).items = l₁ ++
          { item with quantity := item.quantity + q,
                      amount := (item.quantity + q) * item.rate } :: l₂ ∧
        (addItem products pid q nid s).items.length = s.items.length) ∧
    ((∀ it ∈ s.items, ¬(it.productId = p.id)) →
      (addItem products pid q nid s).items = s.items ++ [mkNewItem nid p q]) := by
  constructor
  · intro hany
    obtain ⟨l₁, item, l₂, hl, hl₁, hitem, hmerge⟩ :=
      mergeItem_decomp p.id q s.items hany
    have hitems : (addItem products pid q nid s).items = l₁ ++
        { item with quantity := item.quantity + q,
                    amount := (item.quantity + q) * item.rate } :: l₂ := by
      simp [addItem, hpid, hfind, hany, hmerge]
    refine ⟨l₁, item, l₂, hl, hl₁, hitem, hitems, ?_⟩
    rw [hitems, hl]
    simp
  · intro hnone
    have hany : (s.items.any fun it => it.productId = p.id) = false := by
      simp only [List.any_eq_false, decide_eq_true_eq]
      exact hnone
    simp [addItem, hpid, hfind, hany]

/-- Witness for C5: merging keeps the line count; a new product appends a
snapshotted line. -/
theorem add_item_spec_witness :
    (addItem [demoProduct] "p1" 3 "i9" demoCart).items.length =
      demoCart.items.length ∧
    (addItem [demoProduct2] "p2" 1 "i9" demoCart).items =
      demoCart.items ++ [mkNewItem "i9" demoProduct2 1] := by
  constructor
  · obtain ⟨l₁, item, l₂, h1, h2, h3, h4, hlen⟩ :=
      (add_item_spec [demoProduct] "p1" 3 "i9" demoCart demoProduct
        (by decide) (by decide)).1 (by decide)
    exact hlen
  · exact (add_item_spec [demoProduct2] "p2" 1 "i9" demoCart demoProduct2
      (by decide) (by decide)).2 (by decide)

/-- C6: the amount-in-words conversion maps `0` to the literal `"Zero"`;
every nonzero in-range result carries the `"Only"` suffix (for `100` the
result is `"One Hundred Only"`, which ends in `"Only"` and contains
`"Hundred"`); and every input of ten or more digits yields the constant
overflow result `"overflowOnly"` — the explicit `"overflow"` marker with
the suffix appended — rather than any wrapped or truncated rendering. -/
theorem number_to_words_spec :
    numberToWords 0 = "Zero" ∧
    (∀ n : ℕ, n ≠ 0 → n < 1000000000 → numberToWords n = inWords n ++ "Only") ∧
    numberToWords 100 = "One Hundred Only" ∧
    (∀ n : ℕ, 1000000000 ≤ n → numberToWords n = "overflowOnly") := by
  refine ⟨rfl, ?_, by decide, ?_⟩
  · intro n h0 _
    simp [numberToWords, h0]
  · intro n hn
    have h0 : n ≠ 0 := by omega
    have hover : inWords n = "overflow" := by
      simp [inWords, hn]
    simp [numberToWords, h0, hover]

/-- Witness for C6 at concrete inputs: a small in-range value and the
first out-of-range value. -/
theorem number_to_words_spec_witness :
    numberToWords 21 = inWords 21 ++ "Only" ∧
    numberToWords 1000000000 = "overflowOnly" := by
  exact ⟨number_to_words_spec.2.1 21 (by decide) (by decide),
    number_to_words_spec.2.2.2 1000000000 (by decide)⟩

/-- Folding the per-line gram contributions over lines that all contribute
zero leaves the accumulator unchanged. -/
theorem foldl_itemGrams_zero (l : List InvoiceItem) (a : ℚ)
    (h : ∀ item ∈ l, itemGrams item = 0) :
    l.foldl (fun sum item => sum + itemGrams item) a = a := by
  induction l generalizing a with
  | nil => rfl
  | cons x t ih =>
    have hx : itemGrams x = 0 := h x (by simp)
    simp only [List.foldl_cons, hx, add_zero]
    exact ih a fun item hi => h item (by simp [hi])

/-- C7: the weight aggregation.  The packing parser accepts the
case-insensitive decimal-prefix pattern and multiplies kg/ltr/l by 1000
while gm/g/ml stay as-is; a matching line contributes
`parsedValue * quantity` and a non-matching (or absent) packing
contributes `0`; the concrete example `"1 kg" × 2` plus `"500 gm" × 1`
formats as `"2 Kg 500 Gm"`; and when no line contributes the display is
the dash sentinel. -/
theorem weight_aggregation_spec :
    totalWeightDisplay [demoItem, demoItem2] = "2 Kg 500 Gm" ∧
    (∀ items : List InvoiceItem, (∀ item ∈ items, itemGrams item = 0) →
      totalWeightDisplay items = "-") ∧
    (∀ item : InvoiceItem, ∀ p : String, ∀ v : ℚ, item.packing = some p →
      parsePacking p = some v → itemGrams item = v * item.quantity) ∧
    (∀ item : InvoiceItem, item.packing = none → itemGrams item = 0) ∧
    (∀ item : InvoiceItem, ∀ p : String, item.packing = some p →
      parsePacking p = none → itemGrams item = 0) ∧
    parsePacking "1 KG" = some 1000 ∧
    parsePacking "2.5 kg" = some 2500 ∧
    parsePacking "500 gm" = some 500 ∧
    parsePacking "250ml" = some 250 ∧
    parsePacking "1 Ltr" = some 1000 ∧
    parsePacking "pouch of 5" = none := by
  have h1 : itemGrams demoItem = (((1 : ℕ) : ℚ) * 1000) * 2 := rfl
  have h2 : itemGrams demoItem2 = ((500 : ℕ) : ℚ) * 1 := rfl
  have htot : List.foldl (fun sum item => sum + itemGrams item) 0
      [demoItem, demoItem2] = (2500 : ℚ) := by
    simp only [List.foldl_cons, List.foldl_nil, h1, h2]
    norm_num
  have hfloor : ⌊(2500 : ℚ) / 1000⌋ = 2 := by
    rw [Int.floor_eq_iff]
    norm_num
  have hround : jsRound ((2500 : ℚ) - 1000 * ((2 : ℤ) : ℚ)) = 500 := by
    unfold jsRound
    rw [Int.floor_eq_iff]
    norm_num
  have hexample : totalWeightDisplay [demoItem, demoItem2] = "2 Kg 500 Gm" := by
    simp only [totalWeightDisplay]
    rw [htot, hfloor, hround, if_neg (by norm_num : ¬(2500 : ℚ) = 0)]
    decide
  refine ⟨hexample, ?_, ?_, ?_, ?_, ?_, ?_, ?_, ?_, ?_, rfl⟩
  · intro items h
    simp only [totalWeightDisplay]
    rw [foldl_itemGrams_zero items 0 h]
    rfl
  · intro item p v hp hv
    simp [itemGrams, hp, hv]
  · intro item hp
    simp [itemGrams, hp]
  · intro item p hp hv
    simp [itemGrams, hp, hv]
  · rw [show parsePacking "1 KG" = some (((1 : ℕ) : ℚ) * 1000) from rfl]
    norm_num
  · rw [show parsePacking "2.5 kg" =
        some ((((2 : ℕ) : ℚ) + ((5 : ℕ) : ℚ) / ((10 : ℚ) ^ (1 : ℕ))) * 1000)
      from rfl]
    norm_num
  · rw [show parsePacking "500 gm" = some ((500 : ℕ) : ℚ) from rfl]
    norm_num
  · rw [show parsePacking "250ml" = some ((250 : ℕ) : ℚ) from rfl]
    norm_num
  · rw [show parsePacking "1 Ltr" = some (((1 : ℕ) : ℚ) * 1000) from rfl]
    norm_num

/-- Witness for C7: a cart of only non-contributing lines displays the
dash sentinel, and a matching line contributes value times quantity. -/
theorem weight_aggregation_spec_witness :
    totalWeightDisplay [noWeightItem] = "-" ∧
    itemGrams demoItem2 = 500 * demoItem2.quantity := by
  constructor
  · exact weight_aggregation_spec.2.1 [noWeightItem] (by decide)
  · exact weight_aggregation_spec.2.2.1 demoItem2 "500 gm" 500 rfl
      (by rw [show parsePacking "500 gm" = some ((500 : ℕ) : ℚ) from rfl]; simp)

/-- For invoices whose ids parse, the sort comparator is exactly the
descending order on the numeric id. -/
theorem sortLE_iff (a b : Invoice) (ha : (jsParseInt a.id).isSome = true)
    (hb : (jsParseInt b.id).isSome = true) :
    sortLE a b = true ↔ numericId b ≤ numericId a := by
  obtain ⟨x, hx⟩ := Option.isSome_iff_exists.mp ha
  obtain ⟨y, hy⟩ := Option.isSome_iff_exists.mp hb
  simp [sortLE, numericId, hx, hy]

/-- Inserting a parsed invoice into a list of parsed invoices that is
pairwise descending by numeric id keeps it pairwise descending. -/
theorem pairwise_orderedInsert_numeric (a : Invoice) (L : List Invoice)
    (ha : (jsParseInt a.id).isSome = true)
    (hL : ∀ x ∈ L, (jsParseInt x.id).isSome = true)
    (h : L.Pairwise fun x y => numericId y ≤ numericId x) :
    (List.orderedInsert (fun x y => sortLE x y = true) a L).Pairwise
      fun x y => numericId y ≤ numericId x := by
  induction L with
  | nil => simp
  | cons b t ih =>
    have hb : (jsParseInt b.id).isSome = true := hL b (by simp)
    rw [List.pairwise_cons] at h
    by_cases hab : sortLE a b = true
    · simp only [List.orderedInsert, if_pos hab]
      rw [List.pairwise_cons]
      have hba : numericId b ≤ numericId a := (sortLE_iff a b ha hb).mp hab
      refine ⟨?_, List.pairwise_cons.mpr h⟩
      intro y hy
      rcases List.mem_cons.mp hy with rfl | hy
      · exact hba
      · exact le_trans (h.1 y hy) hba
    · have hab2 : numericId a ≤ numericId b := by
        have := (sortLE_iff a b ha hb).not.mp (by simpa using hab)
        omega
      simp only [List.orderedInsert, if_neg hab]
      rw [List.pairwise_cons]
      refine ⟨?_, ih (fun x hx => hL x (by simp [hx])) h.2⟩
      intro y hy
      rcases (List.mem_orderedInsert _).mp hy with rfl | hy
      · exact hab2
      · exact h.1 y hy

/-- Insertion sort with the history comparator yields a list pairwise
descending by numeric id when every id parses. -/
theorem pairwise_insertionSort_numeric (L : List Invoice)
    (hL : ∀ x ∈ L, (jsParseInt x.id).isSome = true) :
    (List.insertionSort (fun x y => sortLE x y = true) L).Pairwise
      fun x y => numericId y ≤ numericId x := by
  induction L with
  | nil => simp
  | cons a t ih =>
    simp only [List.insertionSort]
    refine pairwise_orderedInsert_numeric a _ (hL a (by simp)) ?_
      (ih fun x hx => hL x (by simp [hx]))
    intro x hx
    exact hL x (by simp [(List.mem_insertionSort _).mp hx])

/-- C8: the history view's filtered result contains exactly the invoices
whose customer name or bill id case-insensitively contains the search term
and that satisfy the inclusive day-first date range; an invoice whose
stored date does not split into three day/month/year parts always passes
the date filter; and when all bill ids are numeric the result is ordered
descending by the numeric value of the id (the concrete pair with ids "9"
and "10" orders as ["10", "9"], not lexicographically, and the range
endpoints are inclusive). -/
theorem history_filter_spec (invoices : List Invoice)
    (searchTerm startDate endDate : String) :
    (∀ inv, inv ∈ filteredInvoices invoices searchTerm startDate endDate ↔
      inv ∈ invoices ∧ matchesSearch searchTerm inv = true ∧
        matchesDate startDate endDate inv = true) ∧
    (∀ inv : Invoice, (jsSplit '/' inv.date).length ≠ 3 →
      matchesDate startDate endDate inv = true) ∧
    ((∀ inv ∈ invoices, (jsParseInt inv.id).isSome = true) →
      (filteredInvoices invoices searchTerm startDate endDate).Pairwise
        fun a b => numericId b ≤ numericId a) ∧
    (filteredInvoices [demoInvoice9, demoInvoice10] "" "" "").map Invoice.id =
      ["10", "9"] ∧
    matchesDate "2024-01-05" "2024-01-05" demoInvoice9 = true := by
  refine ⟨?_, ?_, ?_, by decide, by decide⟩
  · intro inv
    rw [filteredInvoices, List.mem_insertionSort, List.mem_filter,
      Bool.and_eq_true]
  · intro inv h
    have hnone : invDateTriple inv.date = none := by
      unfold invDateTriple
      rcases hsplit : jsSplit '/' inv.date with _ | ⟨a, _ | ⟨b, _ | ⟨c, _ | ⟨d, t⟩⟩⟩⟩
      · rfl
      · rfl
      · rfl
      · exact absurd (by rw [hsplit] at h ⊢; rfl) h
      · rfl
    by_cases hse : startDate = "" ∧ endDate = "" <;>
      simp [matchesDate, hse, hnone]
  · intro hp
    rw [filteredInvoices]
    refine pairwise_insertionSort_numeric _ ?_
    intro x hx
    exact hp x (List.mem_filter.mp hx).1

/-- Witness for C8: membership characterization, an unparseable date
passing the date filter, and the descending ordering at concrete data. -/
theorem history_filter_spec_witness :
    demoInvoice10 ∈ filteredInvoices [demoInvoice9, demoInvoice10] "" "" "" ∧
    matchesDate "" "" badDateInvoice = true ∧
    (filteredInvoices [demoInvoice9, demoInvoice10] "" "" "").Pairwise
      (fun a b => numericId b ≤ numericId a) := by
  have h := history_filter_spec [demoInvoice9, demoInvoice10] "" "" ""
  refine ⟨(h.1 demoInvoice10).mpr ⟨by decide, by decide, by decide⟩, ?_,
    h.2.2.1 (by decide)⟩
  exact (history_filter_spec [badDateInvoice] "" "" "").2.1 badDateInvoice
    (by decide)

/-- Splitting a join on a separator character recovers the parts, provided
no part contains the separator. -/
theorem jsSplit_jsJoin (c : Char) (sep : String) (parts : List String)
    (hsep : sep.data = [c]) (hne : parts ≠ [])
    (hc : ∀ p ∈ parts, c ∉ p.data) :
    jsSplit c (jsJoin sep parts) = parts := by
  unfold jsSplit jsJoin
  rw [hsep]
  rw [show (String.mk (List.intercalate [c] (parts.map String.data))).data =
      List.intercalate [c] (parts.map String.data) from rfl]
  rw [List.splitOn_intercalate _ c ?hx ?hls]
  · rw [List.map_map]
    rw [show (String.mk ∘ String.data) = id from funext fun s => rfl]
    exact List.map_id parts
  case hx =>
    intro l hl
    obtain ⟨p, hp, rfl⟩ := List.mem_map.mp hl
    exact hc p hp
  case hls =>
    simp [hne]

/-- Doubling quotes doubles the quote count and leaves a string's other
characters alone. -/
theorem count_escapeQuotes (l : List Char) :
    ((l.flatMap fun ch => if ch = '"' then ['"', '"'] else [ch]).count '"') =
      2 * l.count '"' := by
  induction l with
  | nil => rfl
  | cons ch t ih =>
    rw [List.flatMap_cons, List.count_append, ih, List.count_cons]
    by_cases hch : ch = '"'
    · subst hch
      simp [List.count_cons]
      omega
    · simp [List.count_cons, hch]

/-- C9 counterexample: for the concrete invoice whose customer name embeds
a newline character, the export does not consist of `n + 1`
newline-separated lines (it has three lines for a single invoice), so the
claim as stated fails. -/
theorem csv_line_count_counterexample :
    (csvLines (csvContent [newlineInvoice])).length ≠
      [newlineInvoice].length + 1 := by
  decide

/-- C9 (amended): for invoices none of whose rendered fields contains a
newline character, the CSV export splits into exactly `n + 1`
newline-separated lines — the exact header
`Bill No,Date,Customer Name,City,Items,Total Amount` followed by one row
per invoice in order; each row consists of the invoice's id and date,
the quoted customer name, city and flattened items fields (every embedded
quote character doubled), and the invoice's total, so each row carries
that invoice's exact id and total. -/
theorem csv_export_spec (invoices : List Invoice)
    (hclean : ∀ inv ∈ invoices, '\n' ∉ (csvRow inv).data) :
    csvLines (csvContent invoices) =
      jsJoin "," csvHeaders :: invoices.map csvRow ∧
    (csvLines (csvContent invoices)).length = invoices.length + 1 ∧
    jsJoin "," csvHeaders =
      "Bill No,Date,Customer Name,City,Items,Total Amount" ∧
    (∀ inv ∈ invoices, csvRow inv =
      inv.id ++ "," ++ inv.date ++ "," ++ csvQuote inv.customerName ++ "," ++
        csvQuote inv.customerCity ++ "," ++ csvQuote (itemsString inv.items) ++
        "," ++ jsNumToString inv.total) ∧
    (∀ s : String, csvQuote s =
      "\"" ++ escapeQuotes s ++ "\"" ∧
      (csvQuote s).data.count '"' = 2 + 2 * s.data.count '"') := by
  have hrow : ∀ inv : Invoice, csvRow inv =
      inv.id ++ "," ++ inv.date ++ "," ++ csvQuote inv.customerName ++ "," ++
        csvQuote inv.customerCity ++ "," ++ csvQuote (itemsString inv.items) ++
        "," ++ jsNumToString inv.total := by
    intro inv
    apply String.ext
    simp [csvRow, jsJoin, List.intercalate, List.intersperse,
      String.data_append]
  have hlines : csvLines (csvContent invoices) =
      jsJoin "," csvHeaders :: invoices.map csvRow := by
    unfold csvLines csvContent
    refine jsSplit_jsJoin '\n' "\n" _ rfl (by simp) ?_
    intro p hp
    rcases List.mem_cons.mp hp with rfl | hp
    · decide
    · obtain ⟨inv, hinv, rfl⟩ := List.mem_map.mp hp
      exact hclean inv hinv
  refine ⟨hlines, ?_, by decide, fun inv _ => hrow inv, ?_⟩
  · rw [hlines]
    simp
  · intro s
    refine ⟨rfl, ?_⟩
    show (("\"" ++ escapeQuotes s) ++ "\"").data.count '"' = _
    rw [String.data_append, String.data_append, List.count_append,
      List.count_append]
    rw [show (escapeQuotes s).data =
        s.data.flatMap fun ch => if ch = '"' then ['"', '"'] else [ch] from rfl]
    rw [count_escapeQuotes]
    rw [show List.count '"' ("\"" : String).data = 1 from rfl]
    omega

/-- Witness for C9 (amended) at two concrete newline-free invoices: the
export has exactly three lines. -/
theorem csv_export_spec_witness :
    (csvLines (csvContent [demoInvoice9, demoInvoice10])).length =
      [demoInvoice9, demoInvoice10].length + 1 := by
  exact (csv_export_spec [demoInvoice9, demoInvoice10] (by decide)).2.1

end Billing
